import Mathlib

/-!
Verification of the people_scheduler repository against its specification.

The definitions below are shallow embeddings of the TypeScript source
(src/pages/UnavailabilityManagement.tsx, src/services/api.ts, the schedule
edit modal, the schedule view page) and of the SQL migrations.  Calendar
dates are modelled as rata-die day numbers (day 1 = 0001-01-01, a Monday,
proleptic Gregorian), so that the JavaScript Date comparisons of the source
become comparisons of natural numbers.
-/

namespace PS

/-! ### Calendar arithmetic (shared by several components)

Models the day-level part of the JavaScript Date object used by the source:
a date is its rata-die day number; getDay() (0 = Sunday) is the day number
mod 7, since day 1 (0001-01-01) is a Monday. -/

/-- Gregorian leap-year rule, as implemented by the JavaScript Date object. -/
def isLeap (y : Nat) : Bool :=
  (y % 4 == 0 && y % 100 != 0) || y % 400 == 0

/-- Number of days of month m (1..12) of year y. -/
def daysInMonth (y m : Nat) : Nat :=
  match m with
  | 2 => if isLeap y then 29 else 28
  | 4 => 30
  | 6 => 30
  | 9 => 30
  | 11 => 30
  | _ => 31

/-- Days in the months of year y strictly before month m. -/
def daysBeforeMonth (y m : Nat) : Nat :=
  ((List.range (m - 1)).map (fun i => daysInMonth y (i + 1))).foldl (· + ·) 0

/-- Rata-die day number of the calendar date (y, m, d): day 1 is 0001-01-01
in the proleptic Gregorian calendar. -/
def rataDie (y m d : Nat) : Nat :=
  365 * (y - 1) + (y - 1) / 4 - (y - 1) / 100 + (y - 1) / 400 + daysBeforeMonth y m + d

/-- Day number of startOfMonth(new Date(year, month-1)). -/
def startOfMonth (y m : Nat) : Nat := rataDie y m 1

/-- Day number of endOfMonth(new Date(year, month-1)).  The 23:59:59.999
time component of endOfMonth is irrelevant at day granularity because every
week start compared against it is a midnight instant of a day no later than
this day. -/
def endOfMonth (y m : Nat) : Nat := rataDie y m (daysInMonth y m)

/-- startOfWeek with weekStartsOn 0: the Sunday on or before the given day
(d minus getDay(d), and getDay is the day number mod 7). -/
def sundayOnOrBefore (n : Nat) : Nat := n - n % 7

/-- Embedding of getSundaysInMonth from src/pages/UnavailabilityManagement.tsx
(lines 49-62).  eachWeekOfInterval with weekStartsOn 0 yields the week starts
(Sundays) sundayOnOrBefore start, +7, +14, ... for every week meeting the
interval [start, end]; the while loop of date-fns is rendered as a map over
List.range with the exact iteration count, and the body keeps only the week
starts inside the month. -/
def getSundaysInMonth (y m : Nat) : List Nat :=
  let start := startOfMonth y m
  let stop := endOfMonth y m
  let w0 := sundayOnOrBefore start
  let weeks := (List.range ((stop - w0) / 7 + 1)).map (fun k => w0 + 7 * k)
  weeks.filter (fun w => decide (start ≤ w) && decide (w ≤ stop))

/-- Specification-side predicate: day n belongs to month (y, m). -/
def inMonthDay (y m n : Nat) : Prop := startOfMonth y m ≤ n ∧ n ≤ endOfMonth y m

/-- Specification-side predicate: day n is a Sunday. -/
def isSundayDay (n : Nat) : Prop := n % 7 = 0

end PS

namespace PS

/-- Membership characterization of the Sunday enumeration: a day number is
produced exactly when it lies inside the month and is a Sunday. -/
theorem mem_getSundaysInMonth (y m n : Nat) :
    n ∈ getSundaysInMonth y m ↔ inMonthDay y m n ∧ isSundayDay n := by
  simp only [getSundaysInMonth, inMonthDay, isSundayDay, List.mem_filter, List.mem_map,
    List.mem_range, Bool.and_eq_true, decide_eq_true_eq]
  constructor
  · rintro ⟨⟨k, hk, rfl⟩, hs, he⟩
    refine ⟨⟨hs, he⟩, ?_⟩
    simp only [sundayOnOrBefore]
    omega
  · rintro ⟨⟨hs, he⟩, hmod⟩
    refine ⟨⟨(n - sundayOnOrBefore (startOfMonth y m)) / 7, ?_, ?_⟩, hs, he⟩
    · simp only [sundayOnOrBefore] at *
      omega
    · simp only [sundayOnOrBefore] at *
      omega

/-- Claim C1: for every year y and month m in 1..12, getSundaysInMonth yields
exactly the calendar Sundays of month (y, m) — no Sunday omitted, no date
outside the month — in strictly ascending order (hence without duplicates). -/
theorem c1_getSundaysInMonth_exact (y m : Nat) (h1 : 1 ≤ m) (h2 : m ≤ 12) :
    (∀ n, n ∈ getSundaysInMonth y m ↔ inMonthDay y m n ∧ isSundayDay n) ∧
      (getSundaysInMonth y m).Pairwise (· < ·) := by
  refine ⟨fun n => mem_getSundaysInMonth y m n, ?_⟩
  apply List.Pairwise.sublist (List.filter_sublist _)
  rw [List.pairwise_map]
  exact List.pairwise_lt_range _ |>.imp (by omega)

/-- Witness for C1 at the concrete month January 2026. -/
theorem c1_witness :
    ((1 : Nat) ≤ 1 ∧ (1 : Nat) ≤ 12) ∧
      ((∀ n, n ∈ getSundaysInMonth 2026 1 ↔ inMonthDay 2026 1 n ∧ isSundayDay n) ∧
        (getSundaysInMonth 2026 1).Pairwise (· < ·)) :=
  ⟨⟨by decide, by decide⟩, c1_getSundaysInMonth_exact 2026 1 (by decide) (by decide)⟩

end PS

namespace PS

/-! ### Unavailability (src/services/api.ts, unavailabilityApi) -/

/-- A calendar date (year, month, day); the shallow embedding of an ISO date
string together with the JavaScript Date value parsed from it. -/
structure CalDate where
  year : Nat
  month : Nat
  day : Nat
deriving DecidableEq, Repr

/-- Day number of a calendar date, used to compare dates chronologically the
way JavaScript compares Date objects. -/
def CalDate.toDay (d : CalDate) : Nat := rataDie d.year d.month d.day

/-- Date comparison a <= b as performed on JavaScript Date objects. -/
def dateLe (a b : CalDate) : Bool := decide (a.toDay ≤ b.toDay)

/-- The Unavailability record of src/types/index.ts. -/
structure Unavailability where
  id : String
  person_id : String
  start_date : CalDate
  end_date : CalDate
  reason : Option String
  recurring : Bool
deriving DecidableEq, Repr

/-- Embedding of unavailabilityApi.checkAvailability (src/services/api.ts):
true means available; it scans all unavailability records for one of the
person whose [start_date, end_date] range contains the date. -/
def checkAvailability (personId : String) (date : CalDate)
    (unavailability : List Unavailability) : Bool :=
  !(unavailability.any (fun u =>
    u.person_id == personId && dateLe u.start_date date && dateLe date u.end_date))

/-- Specification-side blocking predicate, following the spec text: a date D
is blocked for P when any record of P satisfies start <= D <= end, or when
recurring is set and the (month, day) window rolled onto the year of D
covers D. -/
def specBlocked (personId : String) (date : CalDate)
    (records : List Unavailability) : Bool :=
  records.any (fun u =>
    u.person_id == personId &&
      ((dateLe u.start_date date && dateLe date u.end_date) ||
        (u.recurring && dateLe { u.start_date with year := date.year } date &&
          dateLe date { u.end_date with year := date.year })))

/-- Counterexample to claim C2 as stated: a recurring record for 2025-03-10
to 2025-03-12 should, per the spec, block 2026-03-11, but checkAvailability
ignores the recurring flag and reports the person available. -/
theorem c2_counterexample :
    ¬((checkAvailability "p1" ⟨2026, 3, 11⟩
        [⟨"u1", "p1", ⟨2025, 3, 10⟩, ⟨2025, 3, 12⟩, none, true⟩] = false) ↔
      specBlocked "p1" ⟨2026, 3, 11⟩
        [⟨"u1", "p1", ⟨2025, 3, 10⟩, ⟨2025, 3, 12⟩, none, true⟩] = true) := by
  decide

/-- Claim C2 amended: checkAvailability reports the date blocked (returns
false) exactly when some record of the person covers it by its literal
start/end range; the recurring flag is ignored. -/
theorem c2_checkAvailability_blocked_iff (personId : String) (date : CalDate)
    (records : List Unavailability) :
    checkAvailability personId date records = false ↔
      ∃ u ∈ records, u.person_id = personId ∧
        u.start_date.toDay ≤ date.toDay ∧ date.toDay ≤ u.end_date.toDay := by
  simp [checkAvailability, dateLe, List.any_eq_true, Bool.and_eq_true, and_assoc]

/-- Witness for the amended C2 at a concrete record list. -/
theorem c2_witness :
    checkAvailability "p1" ⟨2026, 1, 4⟩
      [⟨"u1", "p1", ⟨2026, 1, 1⟩, ⟨2026, 1, 7⟩, some "viaje", false⟩] = false :=
  (c2_checkAvailability_blocked_iff "p1" ⟨2026, 1, 4⟩ _).mpr (by decide)

end PS

namespace PS

/-- Wire-format unavailability record as handled by unavailabilityApi in
src/services/api.ts: dates are the ISO strings of the JSON payload. -/
structure UnavailabilityWire where
  id : String
  person_id : String
  start_date : String
  end_date : String
  reason : Option String
  recurring : Bool
deriving DecidableEq, Repr

/-- The update request taken by unavailabilityApi.update: every field except
the id may be absent. -/
structure UpdateUnavailabilityReq where
  id : String
  person_id : Option String
  start_date : Option String
  end_date : Option String
  reason : Option String
  recurring : Option Bool
deriving DecidableEq, Repr

/-- Body of the recreated record posted by unavailabilityApi.update. -/
structure CreateUnavailabilityReq where
  person_id : String
  start_date : String
  end_date : String
  reason : Option String
  recurring : Bool
deriving DecidableEq, Repr

/-- JavaScript a || b on an optional string a: the right operand is taken
when a is undefined or the empty string (both falsy). -/
def orTruthy (a : Option String) (b : String) : String :=
  match a with
  | some s => if s = "" then b else s
  | none => b

/-- Embedding of unavailabilityApi.update (src/services/api.ts lines
205-217): the existing record is fetched, deleted, and a replacement is
created whose person_id/start_date/end_date use JavaScript || against the
existing values while reason and recurring use explicit undefined checks.
The replacement is created fresh, so the record id is not preserved. -/
def updateUnavailability (request : UpdateUnavailabilityReq)
    (existing : UnavailabilityWire) : CreateUnavailabilityReq :=
  { person_id := orTruthy request.person_id existing.person_id
    start_date := orTruthy request.start_date existing.start_date
    end_date := orTruthy request.end_date existing.end_date
    reason := match request.reason with
      | some r => some r
      | none => existing.reason
    recurring := match request.recurring with
      | some b => b
      | none => existing.recurring }

/-- Counterexample to claim C10 as stated: a request that supplies
person_id as the empty string does not store the request value; the
JavaScript || falls back to the existing person_id. -/
theorem c10_counterexample :
    (updateUnavailability ⟨"u1", some "", none, none, none, none⟩
        ⟨"u1", "p7", "2026-01-04", "2026-01-04", some "viaje", false⟩).person_id = "p7" ∧
      ("p7" : String) ≠ "" := by
  decide

/-- Claim C10 amended: omitted fields are carried over from the existing
record; supplied reason and recurring always come from the request; supplied
person_id, start_date and end_date come from the request only when non-empty,
an empty supplied string falling back to the existing value. -/
theorem c10_update_merge (request : UpdateUnavailabilityReq)
    (existing : UnavailabilityWire) :
    (request.person_id = none →
      (updateUnavailability request existing).person_id = existing.person_id) ∧
    (∀ v, request.person_id = some v → v ≠ "" →
      (updateUnavailability request existing).person_id = v) ∧
    (request.person_id = some "" →
      (updateUnavailability request existing).person_id = existing.person_id) ∧
    (request.start_date = none →
      (updateUnavailability request existing).start_date = existing.start_date) ∧
    (∀ v, request.start_date = some v → v ≠ "" →
      (updateUnavailability request existing).start_date = v) ∧
    (request.start_date = some "" →
      (updateUnavailability request existing).start_date = existing.start_date) ∧
    (request.end_date = none →
      (updateUnavailability request existing).end_date = existing.end_date) ∧
    (∀ v, request.end_date = some v → v ≠ "" →
      (updateUnavailability request existing).end_date = v) ∧
    (request.end_date = some "" →
      (updateUnavailability request existing).end_date = existing.end_date) ∧
    (request.reason = none →
      (updateUnavailability request existing).reason = existing.reason) ∧
    (∀ r, request.reason = some r →
      (updateUnavailability request existing).reason = some r) ∧
    (request.recurring = none →
      (updateUnavailability request existing).recurring = existing.recurring) ∧
    (∀ b, request.recurring = some b →
      (updateUnavailability request existing).recurring = b) := by
  refine ⟨?_, ?_, ?_, ?_, ?_, ?_, ?_, ?_, ?_, ?_, ?_, ?_, ?_⟩
  · intro h; simp [updateUnavailability, orTruthy, h]
  · intro v h hne; simp [updateUnavailability, orTruthy, h, hne]
  · intro h; simp [updateUnavailability, orTruthy, h]
  · intro h; simp [updateUnavailability, orTruthy, h]
  · intro v h hne; simp [updateUnavailability, orTruthy, h, hne]
  · intro h; simp [updateUnavailability, orTruthy, h]
  · intro h; simp [updateUnavailability, orTruthy, h]
  · intro v h hne; simp [updateUnavailability, orTruthy, h, hne]
  · intro h; simp [updateUnavailability, orTruthy, h]
  · intro h; simp [updateUnavailability, h]
  · intro r h; simp [updateUnavailability, h]
  · intro h; simp [updateUnavailability, h]
  · intro b h; simp [updateUnavailability, h]

/-- Witness for the amended C10: a request supplying only the start date
yields a record keeping the existing person and taking the new date. -/
theorem c10_witness :
    (updateUnavailability ⟨"u1", none, some "2026-02-01", none, none, none⟩
        ⟨"u1", "p7", "2026-01-04", "2026-01-04", some "viaje", false⟩).person_id = "p7" ∧
      (updateUnavailability ⟨"u1", none, some "2026-02-01", none, none, none⟩
        ⟨"u1", "p7", "2026-01-04", "2026-01-04", some "viaje", false⟩).start_date = "2026-02-01" := by
  refine ⟨(c10_update_merge _ _).1 rfl, ?_⟩
  exact (c10_update_merge ⟨"u1", none, some "2026-02-01", none, none, none⟩ _).2.2.2.2.1
    "2026-02-01" rfl (by decide)

end PS

namespace PS

/-! ### Eligible-people computation (src/services/api.ts scheduleApi and the
EditAssignmentModal component) -/

/-- The Person record of src/types/index.ts (fields not consulted by the
functions embedded here are carried as data). -/
structure Person where
  id : String
  first_name : String
  last_name : String
  email : Option String
  phone : Option String
  preferred_frequency : String
  max_consecutive_weeks : Nat
  preference_level : Nat
  active : Bool
  notes : Option String
  job_ids : List String
deriving DecidableEq, Repr

/-- The EligiblePerson record returned by
scheduleApi.getEligiblePeopleForAssignment.  Its interface declaration is
not among the source files; the fields are reconstructed from the record
literal built in src/services/api.ts and the reads in the edit modal. -/
structure EligiblePerson where
  id : String
  first_name : String
  last_name : String
  is_available : Bool
  is_qualified : Bool
  passes_consecutive_check : Bool
  sibling_status : String
  assignments_this_year : Nat
  reason_if_ineligible : Option String
deriving DecidableEq, Repr

/-- Request taken by scheduleApi.getEligiblePeopleForAssignment. -/
structure GetEligiblePeopleRequest where
  job_id : String
  service_date : String
  current_person_id : Option String
deriving DecidableEq, Repr

/-- Embedding of scheduleApi.getEligiblePeopleForAssignment
(src/services/api.ts lines 163-179): it fetches all people, keeps the active
ones qualified for the job, and maps each to an EligiblePerson record with
every flag set to true and no ineligibility reason. -/
def getEligiblePeopleForAssignment (people : List Person)
    (request : GetEligiblePeopleRequest) : List EligiblePerson :=
  (people.filter (fun p => p.active && p.job_ids.contains request.job_id)).map
    (fun p =>
      { id := p.id
        first_name := p.first_name
        last_name := p.last_name
        is_available := true
        is_qualified := true
        passes_consecutive_check := true
        sibling_status := "neutral"
        assignments_this_year := 0
        reason_if_ineligible := none })

/-- Specification-side reasons of the ordered hard rules of the spec. -/
inductive HardRuleReason where
  | notActive
  | notQualified
  | excludedFromJob
  | unavailable
deriving DecidableEq, Repr

/-- Specification-side eligibility check, following the spec text of
is_eligible: the four hard rules are evaluated in order (active, qualified,
not excluded, no unavailability covering the date) and the first failure is
the reported reason.  The exclusion flags of the spec data model are not part
of the source Person record and are passed separately. -/
def specIsEligible (p : Person) (jobId : String) (excludedFromJob : Bool)
    (date : CalDate) (records : List Unavailability) : Option HardRuleReason :=
  if !p.active then some .notActive
  else if !(p.job_ids.contains jobId) then some .notQualified
  else if excludedFromJob then some .excludedFromJob
  else if specBlocked p.id date records then some .unavailable
  else none

/-- Counterexample to claim C8 as stated: a person who is active and
qualified but has an unavailability record covering the requested date fails
the fourth hard rule, yet getEligiblePeopleForAssignment returns the person
with no ineligibility mark; so the marked-ineligible-iff-a-rule-fails
equivalence is false at this input. -/
theorem c8_counterexample :
    ¬((∃ e ∈ getEligiblePeopleForAssignment
          [⟨"p1", "Ana", "Diaz", none, none, "bimonthly", 2, 5, true, none, ["lectores"]⟩]
          ⟨"lectores", "2026-01-04", none⟩,
        e.id = "p1" ∧ e.reason_if_ineligible ≠ none) ↔
      specIsEligible
          ⟨"p1", "Ana", "Diaz", none, none, "bimonthly", 2, 5, true, none, ["lectores"]⟩
          "lectores" false ⟨2026, 1, 4⟩
          [⟨"u1", "p1", ⟨2026, 1, 1⟩, ⟨2026, 1, 7⟩, none, false⟩] ≠ none) := by
  decide

/-- Claim C8 amended: getEligiblePeopleForAssignment returns exactly the
active people qualified for the requested job, each mapped to a record with
all eligibility flags true and no ineligibility reason; the exclusion flags
and unavailability records are not consulted, and people failing the
active/qualified tests are omitted rather than marked. -/
theorem c8_getEligible_members (people : List Person)
    (request : GetEligiblePeopleRequest) (e : EligiblePerson) :
    e ∈ getEligiblePeopleForAssignment people request ↔
      ∃ p ∈ people, p.active = true ∧ request.job_id ∈ p.job_ids ∧
        e = { id := p.id, first_name := p.first_name, last_name := p.last_name,
              is_available := true, is_qualified := true,
              passes_consecutive_check := true, sibling_status := "neutral",
              assignments_this_year := 0, reason_if_ineligible := none } := by
  simp only [getEligiblePeopleForAssignment, List.mem_map, List.mem_filter,
    Bool.and_eq_true, List.contains, List.elem_iff]
  constructor
  · rintro ⟨p, ⟨hp, ha, hq⟩, rfl⟩
    exact ⟨p, hp, ha, hq, rfl⟩
  · rintro ⟨p, hp, ha, hq, rfl⟩
    exact ⟨p, ⟨hp, ha, hq⟩, rfl⟩

/-- Witness for the amended C8 at a concrete roster. -/
theorem c8_witness :
    (⟨"p1", "Ana", "Diaz", true, true, true, "neutral", 0, none⟩ : EligiblePerson) ∈
      getEligiblePeopleForAssignment
        [⟨"p1", "Ana", "Diaz", none, none, "bimonthly", 2, 5, true, none, ["lectores"]⟩]
        ⟨"lectores", "2026-01-04", none⟩ :=
  (c8_getEligible_members _ _ _).mpr
    ⟨⟨"p1", "Ana", "Diaz", none, none, "bimonthly", 2, 5, true, none, ["lectores"]⟩,
      by decide, rfl, by decide, rfl⟩

end PS

namespace PS

/-! ### Edit-assignment eligibility marking (EditAssignmentModal component) -/

/-- The Assignment record of src/types/index.ts.  person_id is declared as a
string there, but the empty-slot migration allows NULL and the component code
tests the field for truthiness, so it is modelled as optional. -/
structure Assignment where
  id : String
  service_date_id : String
  job_id : String
  person_id : Option String
  position : Nat
  manual_override : Bool
  person_name : Option String
  job_name : Option String
deriving DecidableEq, Repr

/-- JavaScript truthiness of the person_id field: null, undefined and the
empty string are falsy. -/
def personIdTruthy (a : Assignment) : Bool :=
  match a.person_id with
  | some s => s != ""
  | none => false

/-- ASCII lower-casing of a string, as performed by toLowerCase on the job
names; written as a map over the character list so the kernel can evaluate
it. -/
def toLowerStr (s : String) : String := String.mk (s.data.map Char.toLower)

/-- Embedding of areJobsExclusive (EditAssignmentModal, lines 46-56): only
the two listed pairs of lower-cased job names are mutually exclusive, in
either order. -/
def areJobsExclusive (job1 job2 : String) : Bool :=
  let j1 := toLowerStr job1
  let j2 := toLowerStr job2
  let exclusivePairs : List (String × String) :=
    [("monaguillos", "monaguillos jr"), ("monaguillos", "lectores")]
  exclusivePairs.any (fun ab => (j1 == ab.1 && j2 == ab.2) || (j1 == ab.2 && j2 == ab.1))

/-- Membership in the assignedToSameJob map of loadEligiblePeople: some
other assignment of the schedule with a truthy person_id has this person on
the same job as the edited assignment. -/
def sameJobHas (target : Assignment) (assignments : List Assignment)
    (pid : String) : Bool :=
  assignments.any (fun a => a.id != target.id && personIdTruthy a &&
    a.person_id == some pid && a.job_id == target.job_id)

/-- Membership in the assignedOnSameDayExclusive map of loadEligiblePeople:
some other assignment with a truthy person_id has this person on the same
service date in a job mutually exclusive with the edited one. -/
def sameDayExclusiveHas (target : Assignment) (jobName : String)
    (assignments : List Assignment) (pid : String) : Bool :=
  assignments.any (fun a => a.id != target.id && personIdTruthy a &&
    a.person_id == some pid && a.service_date_id == target.service_date_id &&
    areJobsExclusive jobName (a.job_name.getD ""))

/-- Value stored for this person in the assignedOnSameDayExclusive map: the
job name of the last matching assignment, since every forEach set call
overwrites the previous one. -/
def sameDayExclusiveGet (target : Assignment) (jobName : String)
    (assignments : List Assignment) (pid : String) : Option String :=
  ((assignments.filter (fun a => a.id != target.id && personIdTruthy a &&
    a.person_id == some pid && a.service_date_id == target.service_date_id &&
    areJobsExclusive jobName (a.job_name.getD ""))).map
      (fun a => a.job_name.getD "")).getLast?

/-- The per-person marking step of loadEligiblePeople (EditAssignmentModal,
lines 96-119): a person keeps an already-present reason; otherwise the
same-job rule is checked first, then the exclusive-same-day rule. -/
def markPerson (target : Assignment) (jobName : String)
    (assignments : List Assignment) (person : EligiblePerson) : EligiblePerson :=
  if person.reason_if_ineligible.isSome then person
  else if sameJobHas target assignments person.id then
    { person with
      reason_if_ineligible := some ("Ya asignado como " ++ jobName ++ " este mes") }
  else if sameDayExclusiveHas target jobName assignments person.id then
    { person with
      reason_if_ineligible := some ("Ya asignado como " ++
        (sameDayExclusiveGet target jobName assignments person.id).getD "" ++
        " el mismo día") }
  else person

/-- The marking pass of loadEligiblePeople over the people returned by the
API. -/
def markEligiblePeople (target : Assignment) (jobName : String)
    (assignments : List Assignment) (people : List EligiblePerson) :
    List EligiblePerson :=
  people.map (markPerson target jobName assignments)

/-- Embedding of loadEligiblePeople (EditAssignmentModal, lines 58-127): the
API result for the job and date is marked against the current schedule
assignments. -/
def loadEligiblePeople (people : List Person) (request : GetEligiblePeopleRequest)
    (target : Assignment) (jobName : String) (assignments : List Assignment) :
    List EligiblePerson :=
  markEligiblePeople target jobName assignments
    (getEligiblePeopleForAssignment people request)

/-- The job names configured by the SQL migrations (initial schema plus the
Monaguillos Jr. migration). -/
def configuredJobNames : List String := ["Monaguillos", "Lectores", "Monaguillos Jr."]

theorem markPerson_id (target : Assignment) (jobName : String)
    (assignments : List Assignment) (person : EligiblePerson) :
    (markPerson target jobName assignments person).id = person.id := by
  unfold markPerson
  split
  · rfl
  split
  · rfl
  split
  · rfl
  · rfl

theorem markPerson_isSome_of_sameDay (target : Assignment) (jobName : String)
    (assignments : List Assignment) (person : EligiblePerson)
    (h : sameDayExclusiveHas target jobName assignments person.id = true) :
    (markPerson target jobName assignments person).reason_if_ineligible.isSome = true := by
  unfold markPerson
  split
  · assumption
  split
  · rfl
  · rfl

theorem markPerson_reason_of_sameJob (target : Assignment) (jobName : String)
    (assignments : List Assignment) (person : EligiblePerson)
    (h0 : person.reason_if_ineligible = none)
    (h : sameJobHas target assignments person.id = true) :
    (markPerson target jobName assignments person).reason_if_ineligible =
      some ("Ya asignado como " ++ jobName ++ " este mes") := by
  unfold markPerson
  split
  · simp_all
  · rfl

end PS

namespace PS

/-- Counterexample to claim C3 as stated: Lectores and Monaguillos Jr. are
two distinct configured jobs, yet areJobsExclusive does not relate them, and
a person assigned to Monaguillos Jr. on the service date is returned with no
ineligibility mark when editing a Lectores slot of the same date. -/
theorem c3_counterexample :
    ("Lectores" ∈ configuredJobNames ∧ "Monaguillos Jr." ∈ configuredJobNames ∧
      ("Lectores" : String) ≠ "Monaguillos Jr.") ∧
    areJobsExclusive "Lectores" "Monaguillos Jr." = false ∧
    markEligiblePeople ⟨"a1", "sd1", "lectores", some "p0", 1, false, none, some "Lectores"⟩
        "Lectores"
        [⟨"a2", "sd1", "monaguillos_jr", some "p1", 1, false, some "Ana Diaz",
          some "Monaguillos Jr."⟩]
        [⟨"p1", "Ana", "Diaz", true, true, true, "neutral", 0, none⟩] =
      [⟨"p1", "Ana", "Diaz", true, true, true, "neutral", 0, none⟩] := by
  decide

/-- Claim C3 amended: a person already assigned on the same service date to a
job mutually exclusive with the edited one is always marked ineligible, but
the exclusivity table is not all configured pairs: areJobsExclusive holds
exactly for the lower-cased pairs (monaguillos, monaguillos jr) and
(monaguillos, lectores), in either order. -/
theorem c3_day_exclusivity :
    (∀ j1 j2 : String, areJobsExclusive j1 j2 = true ↔
      ((toLowerStr j1 = "monaguillos" ∧
          (toLowerStr j2 = "monaguillos jr" ∨ toLowerStr j2 = "lectores")) ∨
        (toLowerStr j2 = "monaguillos" ∧
          (toLowerStr j1 = "monaguillos jr" ∨ toLowerStr j1 = "lectores")))) ∧
    (∀ (target : Assignment) (jobName : String) (assignments : List Assignment)
        (people : List EligiblePerson),
      ∀ e ∈ markEligiblePeople target jobName assignments people,
        (∃ a ∈ assignments, a.id ≠ target.id ∧ personIdTruthy a = true ∧
            a.person_id = some e.id ∧ a.service_date_id = target.service_date_id ∧
            areJobsExclusive jobName (a.job_name.getD "") = true) →
          e.reason_if_ineligible.isSome = true) := by
  constructor
  · intro j1 j2
    simp only [areJobsExclusive, List.any_cons, List.any_nil, Bool.or_false,
      Bool.or_eq_true, Bool.and_eq_true, beq_iff_eq]
    tauto
  · intro target jobName assignments people e he hex
    rw [markEligiblePeople, List.mem_map] at he
    obtain ⟨person, hmem, rfl⟩ := he
    apply markPerson_isSome_of_sameDay
    rw [sameDayExclusiveHas, List.any_eq_true]
    obtain ⟨a, ha, hid, htr, hpid, hsd, hx⟩ := hex
    rw [markPerson_id] at hpid
    refine ⟨a, ha, ?_⟩
    simp [hid, htr, hpid, hsd, hx, bne_iff_ne]

/-- Witness for the amended C3: editing a Monaguillos slot, the person
already serving Lectores on the same date is marked ineligible. -/
theorem c3_witness :
    ((⟨"p1", "Ana", "Diaz", true, true, true, "neutral", 0,
        some "Ya asignado como Lectores el mismo día"⟩ : EligiblePerson) ∈
      markEligiblePeople ⟨"a1", "sd1", "monaguillos", some "p0", 1, false, none,
          some "Monaguillos"⟩ "Monaguillos"
        [⟨"a2", "sd1", "lectores", some "p1", 1, false, some "Ana Diaz", some "Lectores"⟩]
        [⟨"p1", "Ana", "Diaz", true, true, true, "neutral", 0, none⟩]) ∧
    (⟨"p1", "Ana", "Diaz", true, true, true, "neutral", 0,
        some "Ya asignado como Lectores el mismo día"⟩ : EligiblePerson).reason_if_ineligible.isSome
      = true := by
  refine ⟨by decide, ?_⟩
  exact c3_day_exclusivity.2
    ⟨"a1", "sd1", "monaguillos", some "p0", 1, false, none, some "Monaguillos"⟩
    "Monaguillos"
    [⟨"a2", "sd1", "lectores", some "p1", 1, false, some "Ana Diaz", some "Lectores"⟩]
    [⟨"p1", "Ana", "Diaz", true, true, true, "neutral", 0, none⟩]
    ⟨"p1", "Ana", "Diaz", true, true, true, "neutral", 0,
      some "Ya asignado como Lectores el mismo día"⟩
    (by decide) (by decide)

theorem mem_getElig_reason_none (people : List Person)
    (request : GetEligiblePeopleRequest) :
    ∀ e ∈ getEligiblePeopleForAssignment people request,
      e.reason_if_ineligible = none := by
  intro e he
  rw [getEligiblePeopleForAssignment, List.mem_map] at he
  obtain ⟨p, _, rfl⟩ := he
  rfl

/-- Claim C4: in the edit modal, every returned person who already holds
another assignment of the same job anywhere in the schedule is reported
ineligible with the once-per-job-per-month reason. -/
theorem c4_once_per_job_marking (people : List Person)
    (request : GetEligiblePeopleRequest) (target : Assignment) (jobName : String)
    (assignments : List Assignment) :
    ∀ e ∈ loadEligiblePeople people request target jobName assignments,
      (∃ a ∈ assignments, a.id ≠ target.id ∧ personIdTruthy a = true ∧
          a.person_id = some e.id ∧ a.job_id = target.job_id) →
        e.reason_if_ineligible = some ("Ya asignado como " ++ jobName ++ " este mes") := by
  intro e he hex
  rw [loadEligiblePeople, markEligiblePeople, List.mem_map] at he
  obtain ⟨person, hmem, rfl⟩ := he
  apply markPerson_reason_of_sameJob
  · exact mem_getElig_reason_none people request person hmem
  · rw [sameJobHas, List.any_eq_true]
    obtain ⟨a, ha, hid, htr, hpid, hjob⟩ := hex
    rw [markPerson_id] at hpid
    refine ⟨a, ha, ?_⟩
    simp [hid, htr, hpid, hjob, bne_iff_ne]

/-- Witness for C4: the person already holding a Lectores assignment on the
other Sunday of the schedule is reported with the once-per-month reason. -/
theorem c4_witness :
    ((⟨"p1", "Ana", "Diaz", true, true, true, "neutral", 0,
        some "Ya asignado como Lectores este mes"⟩ : EligiblePerson) ∈
      loadEligiblePeople
        [⟨"p1", "Ana", "Diaz", none, none, "bimonthly", 2, 5, true, none, ["lectores"]⟩]
        ⟨"lectores", "2026-01-04", none⟩
        ⟨"a1", "sd1", "lectores", some "p0", 1, false, none, some "Lectores"⟩
        "Lectores"
        [⟨"a2", "sd2", "lectores", some "p1", 2, false, some "Ana Diaz", some "Lectores"⟩]) ∧
    (⟨"p1", "Ana", "Diaz", true, true, true, "neutral", 0,
        some "Ya asignado como Lectores este mes"⟩ : EligiblePerson).reason_if_ineligible
      = some "Ya asignado como Lectores este mes" := by
  refine ⟨by decide, ?_⟩
  exact c4_once_per_job_marking
    [⟨"p1", "Ana", "Diaz", none, none, "bimonthly", 2, 5, true, none, ["lectores"]⟩]
    ⟨"lectores", "2026-01-04", none⟩
    ⟨"a1", "sd1", "lectores", some "p0", 1, false, none, some "Lectores"⟩
    "Lectores"
    [⟨"a2", "sd2", "lectores", some "p1", 2, false, some "Ana Diaz", some "Lectores"⟩]
    ⟨"p1", "Ana", "Diaz", true, true, true, "neutral", 0,
      some "Ya asignado como Lectores este mes"⟩
    (by decide) (by decide)

end PS

namespace PS

/-! ### Editing an assignment of a previewed schedule (ScheduleView page) -/

/-- The ServiceDate record of src/types/index.ts. -/
structure ServiceDate where
  id : String
  schedule_id : String
  service_date : String
  notes : Option String
  assignments : List Assignment
deriving DecidableEq, Repr

/-- The per-assignment step of handleSaveAssignment in preview mode
(src/pages/ScheduleView.tsx lines 143-151): the assignment whose id matches
gets the new person, the new person name and manual_override true; any other
assignment is returned as is. -/
def updateAssignmentInPreview (assignmentId newPersonId newPersonName : String)
    (a : Assignment) : Assignment :=
  if a.id = assignmentId then
    { a with
      person_id := some newPersonId
      person_name := some newPersonName
      manual_override := true }
  else a

/-- Embedding of the preview branch of handleSaveAssignment: every service
date is mapped, its assignments rewritten by updateAssignmentInPreview. -/
def handleSaveAssignmentPreview (assignmentId newPersonId newPersonName : String)
    (service_dates : List ServiceDate) : List ServiceDate :=
  service_dates.map (fun sd =>
    { sd with
      assignments := sd.assignments.map
        (updateAssignmentInPreview assignmentId newPersonId newPersonName) })

/-- A pair drawn from the zip of a list with its image under a map is an
element together with its image. -/
theorem mem_zip_map_self {A B : Type} (g : A → B) (l : List A) (pr : A × B)
    (h : pr ∈ l.zip (l.map g)) : pr.2 = g pr.1 := by
  have hz : l.zip (l.map g) = l.map (fun x => (x, g x)) := by
    nth_rewrite 1 [← List.map_id l]
    exact List.zip_map' _ _ _
  rw [hz, List.mem_map] at h
  obtain ⟨x, hx, rfl⟩ := h
  rfl

/-- Claim C6: saving an assignment edit on a preview writes the new person
and manual_override into exactly the assignments bearing the targeted id
(under the schema the id is unique, hence exactly the targeted assignment)
and leaves every other assignment of every service date unchanged; all other
service-date fields and all list lengths are preserved. -/
theorem c6_replace_frame (service_dates : List ServiceDate)
    (assignmentId newPersonId newPersonName : String) :
    (handleSaveAssignmentPreview assignmentId newPersonId newPersonName
        service_dates).length = service_dates.length ∧
    ∀ pr ∈ service_dates.zip
        (handleSaveAssignmentPreview assignmentId newPersonId newPersonName
          service_dates),
      pr.2.id = pr.1.id ∧ pr.2.schedule_id = pr.1.schedule_id ∧
      pr.2.service_date = pr.1.service_date ∧ pr.2.notes = pr.1.notes ∧
      pr.2.assignments.length = pr.1.assignments.length ∧
      ∀ q ∈ pr.1.assignments.zip pr.2.assignments,
        (q.1.id = assignmentId →
          q.2 = { q.1 with
                  person_id := some newPersonId
                  person_name := some newPersonName
                  manual_override := true }) ∧
        (q.1.id ≠ assignmentId → q.2 = q.1) := by
  constructor
  · simp [handleSaveAssignmentPreview]
  intro pr hpr
  obtain ⟨x, y⟩ := pr
  rw [handleSaveAssignmentPreview] at hpr
  have h2 := mem_zip_map_self _ _ _ hpr
  simp only at h2
  subst h2
  refine ⟨rfl, rfl, rfl, rfl, by simp, ?_⟩
  intro q hq
  obtain ⟨a, b⟩ := q
  have hq2 : (a, b) ∈ x.assignments.zip (x.assignments.map
      (updateAssignmentInPreview assignmentId newPersonId newPersonName)) := hq
  have h3 := mem_zip_map_self _ _ _ hq2
  simp only at h3
  subst h3
  constructor
  · intro h
    simp only [updateAssignmentInPreview, if_pos h]
  · intro h
    simp only [updateAssignmentInPreview, if_neg h]

/-- Witness for C6 on a one-date, one-assignment schedule. -/
theorem c6_witness :
    ((((⟨"sd1", "s1", "2026-01-04", none,
          [⟨"a1", "sd1", "lectores", some "p0", 1, false, some "Pedro", some "Lectores"⟩]⟩ :
            ServiceDate),
        (⟨"sd1", "s1", "2026-01-04", none,
          [⟨"a1", "sd1", "lectores", some "p9", 1, true, some "Nuevo", some "Lectores"⟩]⟩ :
            ServiceDate)) ∈
      ([⟨"sd1", "s1", "2026-01-04", none,
          [⟨"a1", "sd1", "lectores", some "p0", 1, false, some "Pedro", some "Lectores"⟩]⟩] :
            List ServiceDate).zip
        (handleSaveAssignmentPreview "a1" "p9" "Nuevo"
          [⟨"sd1", "s1", "2026-01-04", none,
            [⟨"a1", "sd1", "lectores", some "p0", 1, false, some "Pedro", some "Lectores"⟩]⟩])) ∧
      (((⟨"a1", "sd1", "lectores", some "p0", 1, false, some "Pedro", some "Lectores"⟩ :
            Assignment),
        (⟨"a1", "sd1", "lectores", some "p9", 1, true, some "Nuevo", some "Lectores"⟩ :
            Assignment)) ∈
        ([⟨"a1", "sd1", "lectores", some "p0", 1, false, some "Pedro", some "Lectores"⟩] :
            List Assignment).zip
          [⟨"a1", "sd1", "lectores", some "p9", 1, true, some "Nuevo", some "Lectores"⟩])) ∧
    (⟨"a1", "sd1", "lectores", some "p9", 1, true, some "Nuevo", some "Lectores"⟩ :
        Assignment) =
      { (⟨"a1", "sd1", "lectores", some "p0", 1, false, some "Pedro", some "Lectores"⟩ :
          Assignment) with
        person_id := some "p9"
        person_name := some "Nuevo"
        manual_override := true } := by
  refine ⟨⟨by decide, by decide⟩, ?_⟩
  exact ((c6_replace_frame
    [⟨"sd1", "s1", "2026-01-04", none,
      [⟨"a1", "sd1", "lectores", some "p0", 1, false, some "Pedro", some "Lectores"⟩]⟩]
    "a1" "p9" "Nuevo").2
    (⟨"sd1", "s1", "2026-01-04", none,
        [⟨"a1", "sd1", "lectores", some "p0", 1, false, some "Pedro", some "Lectores"⟩]⟩,
      ⟨"sd1", "s1", "2026-01-04", none,
        [⟨"a1", "sd1", "lectores", some "p9", 1, true, some "Nuevo", some "Lectores"⟩]⟩)
    (by decide)).2.2.2.2.2
    (⟨"a1", "sd1", "lectores", some "p0", 1, false, some "Pedro", some "Lectores"⟩,
      ⟨"a1", "sd1", "lectores", some "p9", 1, true, some "Nuevo", some "Lectores"⟩)
    (by decide) |>.1 rfl

end PS

namespace PS

/-! ### Persisted invariants (migrations-postgres/001_initial_schema.sql and
the follow-up migrations appended to it) -/

/-- Declared constraints of one table: its primary key, its UNIQUE
constraints (as column lists), and the NOT NULL columns beyond the key. -/
structure TableConstraints where
  primary_key : List String
  uniques : List (List String)
  not_null : List String
deriving DecidableEq, Repr

/-- schedules as created by the initial schema: UNIQUE(year, month). -/
def schedulesTable : TableConstraints :=
  { primary_key := ["id"]
    uniques := [["year", "month"]]
    not_null := ["name", "year", "month", "status"] }

/-- person_jobs as created by the initial schema: UNIQUE(person_id, job_id). -/
def personJobsTable : TableConstraints :=
  { primary_key := ["id"]
    uniques := [["person_id", "job_id"]]
    not_null := ["person_id", "job_id"] }

/-- assignments as created by the initial schema: person_id NOT NULL and
UNIQUE(service_date_id, job_id, person_id). -/
def assignmentsTableInitial : TableConstraints :=
  { primary_key := ["id"]
    uniques := [["service_date_id", "job_id", "person_id"]]
    not_null := ["service_date_id", "job_id", "person_id"] }

/-- The empty-slot migration on assignments: ALTER COLUMN person_id DROP NOT
NULL; DROP the old unique constraint; ADD UNIQUE(service_date_id, job_id,
position) unless already present. -/
def migrateAssignments (t : TableConstraints) : TableConstraints :=
  let t1 := { t with not_null := t.not_null.filter (fun c => c ≠ "person_id") }
  let t2 := { t1 with
    uniques := t1.uniques.filter
      (fun u => u ≠ ["service_date_id", "job_id", "person_id"]) }
  { t2 with
    uniques :=
      if ["service_date_id", "job_id", "position"] ∈ t2.uniques then t2.uniques
      else t2.uniques ++ [["service_date_id", "job_id", "position"]] }

/-- An assignments row at the level of the columns constrained on disk. -/
structure AssignmentRow where
  id : String
  service_date_id : String
  job_id : String
  person_id : Option String
  position : Nat
deriving DecidableEq, Repr

/-- The row-level meaning of the post-migration assignments constraints: ids
are pairwise distinct and no two rows share (service_date_id, job_id,
position); person_id is unconstrained, in particular it may be NULL in any
number of rows. -/
def assignmentsRowsOk (rows : List AssignmentRow) : Prop :=
  rows.Pairwise (fun r1 r2 =>
    r1.id ≠ r2.id ∧
      ¬(r1.service_date_id = r2.service_date_id ∧ r1.job_id = r2.job_id ∧
        r1.position = r2.position))

instance (rows : List AssignmentRow) : Decidable (assignmentsRowsOk rows) := by
  unfold assignmentsRowsOk
  exact List.instDecidablePairwise rows

/-- Claim C7: after the migrations run, the assignments table carries exactly
the slot unique constraint with person_id nullable, schedules carries exactly
UNIQUE(year, month), person_jobs exactly UNIQUE(person_id, job_id); and two
distinct empty slots (person_id NULL) of the same date and job coexist under
the row-level meaning of the final assignments constraints. -/
theorem c7_disk_invariants :
    migrateAssignments assignmentsTableInitial =
      { primary_key := ["id"]
        uniques := [["service_date_id", "job_id", "position"]]
        not_null := ["service_date_id", "job_id"] } ∧
    schedulesTable.uniques = [["year", "month"]] ∧
    personJobsTable.uniques = [["person_id", "job_id"]] ∧
    "person_id" ∉ (migrateAssignments assignmentsTableInitial).not_null ∧
    assignmentsRowsOk
      [⟨"a1", "sd1", "monaguillos", none, 1⟩,
       ⟨"a2", "sd1", "monaguillos", none, 2⟩] := by
  decide

end PS

namespace PS

/-! ### Generation conflicts (src/types/index.ts and the spec's Phase D) -/

/-- The ConflictType union of src/types/index.ts. -/
inductive ConflictType where
  | insufficient_people
  | sibling_violation
  | consecutive_weeks_exceeded
  | unavailable_person
deriving DecidableEq, Repr

/-- The ScheduleConflict record of src/types/index.ts (lines 128-136): it
carries the service date and the job of the affected slot, a type, a message
and the affected person ids; it has no position field. -/
structure ScheduleConflict where
  service_date : String
  job_id : String
  conflict_type : ConflictType
  message : String
  affected_person_ids : List String
deriving DecidableEq, Repr

/-- A slot of the builder: the triple the spec calls the slot coordinates. -/
structure Slot where
  service_date : String
  job_id : String
  position : Nat
deriving DecidableEq, Repr

/-- Modelled from the spec: the conflict recorded for a slot with no
eligible candidates — the generation engine itself (Phase D of the Schedule
Builder) is a backend component absent from the source tree.  Per the spec
the conflict carries the slot coordinates and the strongest near-miss
reason, but its shape is the source ScheduleConflict record, which has
fields only for the service date and the job. -/
def mkInsufficientConflict (s : Slot) (nearMissReason : String) : ScheduleConflict :=
  { service_date := s.service_date
    job_id := s.job_id
    conflict_type := .insufficient_people
    message := nearMissReason
    affected_person_ids := [] }

/-- Modelled from the spec: Phase D slot filling of the Schedule Builder,
absent from the source tree.  Slots are visited in order; a slot with an
empty candidate set is left empty (person none) and an InsufficientPeople
conflict is recorded; otherwise the selected candidate fills the slot and
generation continues either way. -/
def fillSlots (candidates : Slot → List String) (nearMiss : Slot → String) :
    List Slot → List (Slot × Option String) × List ScheduleConflict
  | [] => ([], [])
  | s :: rest =>
    match candidates s with
    | [] =>
      ((s, none) :: (fillSlots candidates nearMiss rest).1,
        mkInsufficientConflict s (nearMiss s) :: (fillSlots candidates nearMiss rest).2)
    | c :: _ =>
      ((s, some c) :: (fillSlots candidates nearMiss rest).1,
        (fillSlots candidates nearMiss rest).2)

theorem fillSlots_length (candidates : Slot → List String) (nearMiss : Slot → String)
    (slots : List Slot) :
    (fillSlots candidates nearMiss slots).1.length = slots.length := by
  induction slots with
  | nil => rfl
  | cons hd tl ih =>
    simp only [fillSlots]
    cases h : candidates hd <;> simp [ih]

/-- Counterexample to claim C5 as stated: the conflicts recorded for two
slots of the same date and job differing only in position are equal, so the
recorded conflict cannot carry the position of the unfilled slot. -/
theorem c5_counterexample :
    mkInsufficientConflict ⟨"2026-02-15", "monaguillos", 1⟩ "no hay personas elegibles" =
      mkInsufficientConflict ⟨"2026-02-15", "monaguillos", 3⟩ "no hay personas elegibles" ∧
    (⟨"2026-02-15", "monaguillos", 1⟩ : Slot) ≠ ⟨"2026-02-15", "monaguillos", 3⟩ := by
  decide

/-- Claim C5 amended: whenever generation finds an empty candidate set for a
slot, that slot is emitted empty (person none), generation continues (every
slot is emitted), and an insufficient_people conflict is recorded carrying
the service date and the job — but not the position — of the unfilled
slot. -/
theorem c5_insufficient_people (candidates : Slot → List String)
    (nearMiss : Slot → String) (slots : List Slot) (s : Slot)
    (hs : s ∈ slots) (hempty : candidates s = []) :
    (fillSlots candidates nearMiss slots).1.length = slots.length ∧
    (s, (none : Option String)) ∈ (fillSlots candidates nearMiss slots).1 ∧
    ∃ c ∈ (fillSlots candidates nearMiss slots).2,
      c.service_date = s.service_date ∧ c.job_id = s.job_id ∧
      c.conflict_type = ConflictType.insufficient_people := by
  refine ⟨fillSlots_length candidates nearMiss slots, ?_, ?_⟩
  · induction slots with
    | nil => cases hs
    | cons hd tl ih =>
      rcases List.mem_cons.mp hs with heq | hmem
      · subst heq
        simp only [fillSlots, hempty]
        exact List.mem_cons_self _ _
      · have hmemout := ih hmem
        simp only [fillSlots]
        cases h : candidates hd
        · exact List.mem_cons_of_mem _ hmemout
        · exact List.mem_cons_of_mem _ hmemout
  · induction slots with
    | nil => cases hs
    | cons hd tl ih =>
      rcases List.mem_cons.mp hs with heq | hmem
      · subst heq
        simp only [fillSlots, hempty]
        exact ⟨mkInsufficientConflict s (nearMiss s), List.mem_cons_self _ _, rfl, rfl, rfl⟩
      · obtain ⟨c, hc, hprops⟩ := ih hmem
        simp only [fillSlots]
        cases h : candidates hd
        · exact ⟨c, List.mem_cons_of_mem _ hc, hprops⟩
        · exact ⟨c, hc, hprops⟩

/-- Witness for the amended C5: with no candidates at all, both slots of the
date are emitted empty and an insufficient_people conflict carries the date
and the job of the second slot. -/
theorem c5_witness :
    ((⟨"2026-02-15", "monaguillos", 3⟩ : Slot) ∈
        ([⟨"2026-02-15", "monaguillos", 1⟩, ⟨"2026-02-15", "monaguillos", 3⟩] : List Slot)) ∧
    ((fillSlots (fun _ : Slot => ([] : List String)) (fun _ : Slot => "sin candidatos")
        [⟨"2026-02-15", "monaguillos", 1⟩, ⟨"2026-02-15", "monaguillos", 3⟩]).1.length =
      ([⟨"2026-02-15", "monaguillos", 1⟩, ⟨"2026-02-15", "monaguillos", 3⟩] : List Slot).length ∧
      ((⟨"2026-02-15", "monaguillos", 3⟩ : Slot), (none : Option String)) ∈
        (fillSlots (fun _ : Slot => ([] : List String)) (fun _ : Slot => "sin candidatos")
          [⟨"2026-02-15", "monaguillos", 1⟩, ⟨"2026-02-15", "monaguillos", 3⟩]).1 ∧
      ∃ c ∈ (fillSlots (fun _ : Slot => ([] : List String)) (fun _ : Slot => "sin candidatos")
          [⟨"2026-02-15", "monaguillos", 1⟩, ⟨"2026-02-15", "monaguillos", 3⟩]).2,
        c.service_date = (⟨"2026-02-15", "monaguillos", 3⟩ : Slot).service_date ∧
        c.job_id = (⟨"2026-02-15", "monaguillos", 3⟩ : Slot).job_id ∧
        c.conflict_type = ConflictType.insufficient_people) :=
  ⟨by decide,
    c5_insufficient_people (fun _ : Slot => ([] : List String))
      (fun _ : Slot => "sin candidatos")
      [⟨"2026-02-15", "monaguillos", 1⟩, ⟨"2026-02-15", "monaguillos", 3⟩]
      ⟨"2026-02-15", "monaguillos", 3⟩ (by decide) rfl⟩

end PS

namespace PS

/-! ### Determinism of schedule generation (spec sections 4.5-4.6 and 5) -/

/-- Modelled from the spec: a person as seen by the generation engine, which
is a backend component absent from the source tree.  The fields carry the
candidate-filter and scoring inputs of the spec that the model uses. -/
structure GenPerson where
  id : String
  active : Bool
  job_ids : List String
  preference_level : Nat
  count_this_year : Nat
  rotation_bag : List Nat
deriving DecidableEq, Repr

/-- Modelled from the spec: the input snapshot of one generation run. -/
structure GenSnapshot where
  people : List GenPerson
  slots : List Slot
deriving DecidableEq, Repr

/-- Modelled from the spec: the fairness score of a candidate for a slot
position, with the spec weights w_fair = 0.70, w_pref = 0.10 and
w_bag = 0.30.  The recency, frequency and sibling terms are likewise pure
functions of the snapshot and do not affect the determinism argument. -/
def score (position : Nat) (p : GenPerson) : ℚ :=
  (7 / 10) * (1 / ((p.count_this_year : ℚ) + 1)) +
    (1 / 10) * ((p.preference_level : ℚ) / 10) +
    (3 / 10) * (if p.rotation_bag.contains position then 1 else 0)

/-- Modelled from the spec: strict preference between candidates — higher
score wins, ties broken by smaller yearly count and then by lexicographic
person id, as section 4.5 prescribes. -/
def betterCandidate (position : Nat) (a b : GenPerson) : Bool :=
  if score position a > score position b then true
  else if score position a < score position b then false
  else if a.count_this_year < b.count_this_year then true
  else if b.count_this_year < a.count_this_year then false
  else decide (a.id < b.id)

/-- Modelled from the spec: Phase D selection — the maximum of the candidate
list under betterCandidate, the running best being replaced only by a
strictly better candidate. -/
def pickBest (position : Nat) : List GenPerson → Option GenPerson
  | [] => none
  | p :: rest =>
    some (rest.foldl (fun best q => if betterCandidate position q best then q else best) p)

/-- Modelled from the spec: the generation pipeline at the granularity the
determinism property needs — people are first brought into the canonical
order sorted by id (the determinism tax of section 9), then every slot is
mapped to its selected candidate among the active people qualified for the
slot's job. -/
def generate (X : GenSnapshot) : List (Slot × Option String) :=
  X.slots.map (fun s =>
    (s, (pickBest s.position
      ((X.people.mergeSort (fun a b => decide (a.id ≤ b.id))).filter
        (fun p => p.active && p.job_ids.contains s.job_id))).map GenPerson.id))

theorem mergeSort_people_eq_of_perm (l1 l2 : List GenPerson) (hp : l1.Perm l2)
    (hnd : (l2.map GenPerson.id).Nodup) :
    l1.mergeSort (fun a b => decide (a.id ≤ b.id)) =
      l2.mergeSort (fun a b => decide (a.id ≤ b.id)) := by
  have key : ∀ l : List GenPerson, (l.map GenPerson.id).Nodup →
      (l.mergeSort (fun a b => decide (a.id ≤ b.id))).Pairwise
        (fun a b => a.id < b.id) := by
    intro l hl
    have hle := @List.sorted_mergeSort GenPerson
      (fun a b : GenPerson => decide (a.id ≤ b.id))
      (fun a b c h1 h2 => by
        simp only [decide_eq_true_eq] at h1 h2 ⊢
        exact le_trans h1 h2)
      (fun a b => by simpa using le_total a.id b.id) l
    have hmapnd : ((l.mergeSort (fun a b => decide (a.id ≤ b.id))).map
        GenPerson.id).Nodup :=
      ((List.mergeSort_perm l _).map GenPerson.id).nodup_iff.mpr hl
    have hne : (l.mergeSort (fun a b => decide (a.id ≤ b.id))).Pairwise
        (fun a b => a.id ≠ b.id) := by
      rw [List.Nodup, List.pairwise_map] at hmapnd
      exact hmapnd
    exact (hle.and hne).imp
      (fun h => lt_of_le_of_ne (by simpa using h.1) h.2)
  have hperm : (l1.mergeSort (fun a b => decide (a.id ≤ b.id))).Perm
      (l2.mergeSort (fun a b => decide (a.id ≤ b.id))) :=
    (List.mergeSort_perm l1 _).trans (hp.trans (List.mergeSort_perm l2 _).symm)
  have hnd1 : (l1.map GenPerson.id).Nodup := ((hp.map GenPerson.id).nodup_iff).mpr hnd
  haveI : IsAntisymm GenPerson (fun a b => a.id < b.id) :=
    ⟨fun a b h1 h2 => absurd (h1.trans h2) (lt_irrefl _)⟩
  exact List.eq_of_perm_of_sorted hperm (key l1 hnd1) (key l2 hnd)

/-- Claim C9: generation is deterministic — two runs on the same input
snapshot produce identical outputs, even when the snapshot collections are
presented in different orders (the only run- or platform-dependent aspect of
an input snapshot in this model), because the pipeline canonicalizes the
people by sorting on their distinct ids. -/
theorem c9_generate_deterministic (X Y : GenSnapshot)
    (hslots : X.slots = Y.slots) (hperm : X.people.Perm Y.people)
    (hnd : (Y.people.map GenPerson.id).Nodup) :
    generate X = generate Y := by
  unfold generate
  rw [hslots, mergeSort_people_eq_of_perm X.people Y.people hperm hnd]

/-- Witness for C9 on a two-person snapshot presented in two orders. -/
theorem c9_witness :
    (GenSnapshot.mk
        [⟨"p2", true, ["lectores"], 5, 1, [1]⟩, ⟨"p1", true, ["lectores"], 5, 0, [1]⟩]
        [⟨"2026-01-04", "lectores", 1⟩]).slots =
      (GenSnapshot.mk
        [⟨"p1", true, ["lectores"], 5, 0, [1]⟩, ⟨"p2", true, ["lectores"], 5, 1, [1]⟩]
        [⟨"2026-01-04", "lectores", 1⟩]).slots ∧
    ([⟨"p2", true, ["lectores"], 5, 1, [1]⟩, ⟨"p1", true, ["lectores"], 5, 0, [1]⟩] :
        List GenPerson).Perm
      [⟨"p1", true, ["lectores"], 5, 0, [1]⟩, ⟨"p2", true, ["lectores"], 5, 1, [1]⟩] ∧
    (([⟨"p1", true, ["lectores"], 5, 0, [1]⟩, ⟨"p2", true, ["lectores"], 5, 1, [1]⟩] :
        List GenPerson).map GenPerson.id).Nodup ∧
    generate (GenSnapshot.mk
        [⟨"p2", true, ["lectores"], 5, 1, [1]⟩, ⟨"p1", true, ["lectores"], 5, 0, [1]⟩]
        [⟨"2026-01-04", "lectores", 1⟩]) =
      generate (GenSnapshot.mk
        [⟨"p1", true, ["lectores"], 5, 0, [1]⟩, ⟨"p2", true, ["lectores"], 5, 1, [1]⟩]
        [⟨"2026-01-04", "lectores", 1⟩]) :=
  ⟨rfl, by decide, by decide,
    c9_generate_deterministic _ _ rfl (by decide) (by decide)⟩

end PS
